import Mathlib

/-!
Verification of the Mainflux Thing-Key Cache (`things/redis/things.go`) and
of the lora-adapter startup subscription wiring (`cmd/lora/main.go`).

The Redis client is embedded as an explicit state: an association-list store
of `(key, value, expiry)` entries plus a schedule of transport outcomes (one
per issued command; an empty schedule means the store is reachable and every
command is executed) and a trace recording each command sent to the store.
-/

set_option maxRecDepth 4096

namespace Mainflux

/-- Transport outcome of one command sent to the Redis server: either the
server executes it, or the round trip fails with a message. -/
inductive NetOutcome where
  | ok : NetOutcome
  | fail : String → NetOutcome
deriving DecidableEq, Repr

/-- Errors produced by the Redis client: `nil` is the miss reply returned by
`GET` on an absent key (`redis.Nil`), `network` a transport failure. -/
inductive RedisErr where
  | nil : RedisErr
  | network : String → RedisErr
deriving DecidableEq, Repr

/-- A command as sent to the Redis server; `setC` carries the expiration
argument of `SET` (0 meaning no expiry) and `delC` the key list of one
multi-key `DEL` request. -/
inductive Cmd where
  | getC : String → Cmd
  | setC : String → String → Nat → Cmd
  | delC : List String → Cmd
deriving DecidableEq, Repr

/-- The key/value state of the Redis store: entries `(key, value, expiry)`,
most recent write first. -/
def Store := List (String × String × Nat)

/-- Entry visible to `GET` for a key: its value and its expiry. -/
def Store.entry : Store → String → Option (String × Nat)
  | [], _ => none
  | p :: rest, q => if p.1 = q then some p.2 else Store.entry rest q

/-- Value stored under a key, if any. -/
def Store.get (s : Store) (q : String) : Option String :=
  (s.entry q).map Prod.fst

/-- Drop every entry stored under `k` (a `SET` overwrites the previous
binding of its key). -/
def Store.delKey : Store → String → Store
  | [], _ => []
  | p :: rest, k => if p.1 = k then Store.delKey rest k else p :: Store.delKey rest k

/-- Embeds `SET k v ttl`: bind `k` to `v` with expiry `ttl`, replacing any previous
binding of `k`. -/
def Store.set (s : Store) (k v : String) (ttl : Nat) : Store :=
  (k, v, ttl) :: s.delKey k

/-- Multi-key `DEL`: remove every entry whose key is in `ks`, atomically. -/
def Store.del : Store → List String → Store
  | [], _ => []
  | p :: rest, ks => if p.1 ∈ ks then Store.del rest ks else p :: Store.del rest ks

/-- The Redis client as seen by the cache: store state, the schedule of
transport outcomes for the next commands (exhausted schedule = every further
command succeeds at transport level), and the trace of commands issued. -/
structure Client where
  store : Store
  sched : List NetOutcome
  trace : List Cmd

/-- Consume the transport outcome for the next command. -/
def Client.next : Client → NetOutcome × Client
  | ⟨st, [], tr⟩ => (NetOutcome.ok, ⟨st, [], tr⟩)
  | ⟨st, o :: rest, tr⟩ => (o, ⟨st, rest, tr⟩)

/-- Record a command in the client trace. -/
def Client.logCmd (c : Client) (cmd : Cmd) : Client :=
  { c with trace := c.trace ++ [cmd] }

/-- Embeds `client.Get(k).Result()`: a transport failure yields a network error, an
absent key yields the `redis.Nil` error, otherwise the stored value. -/
def Client.get (c : Client) (k : String) : Client × Except RedisErr String :=
  match (c.logCmd (Cmd.getC k)).next with
  | (NetOutcome.fail m, c1) => (c1, Except.error (RedisErr.network m))
  | (NetOutcome.ok, c1) =>
    match c1.store.get k with
    | none => (c1, Except.error RedisErr.nil)
    | some v => (c1, Except.ok v)

/-- Embeds `client.Set(k, v, ttl).Err()`. -/
def Client.set (c : Client) (k v : String) (ttl : Nat) : Client × Option RedisErr :=
  match (c.logCmd (Cmd.setC k v ttl)).next with
  | (NetOutcome.fail m, c1) => (c1, some (RedisErr.network m))
  | (NetOutcome.ok, c1) => ({ c1 with store := c1.store.set k v ttl }, none)

/-- Embeds `client.Del(ks...).Err()`: one atomic multi-key delete request. -/
def Client.del (c : Client) (ks : List String) : Client × Option RedisErr :=
  match (c.logCmd (Cmd.delC ks)).next with
  | (NetOutcome.fail m, c1) => (c1, some (RedisErr.network m))
  | (NetOutcome.ok, c1) => ({ c1 with store := c1.store.del ks }, none)

/-- Modelled from the spec: the repository's `errors` package
(`github.com/mainflux/mainflux/errors`) is not under src/; per the spec's
propagation policy, a cache-layer error is "wrapped with a
component-identifying cause before returning", so an error carries the
component message and, when wrapped, the underlying store-client error. -/
structure MfError where
  msg : String
  cause : Option RedisErr
deriving DecidableEq, Repr

/-- Modelled from the spec: `errors.New` — a fresh component error with no
underlying cause. -/
def errNew (m : String) : MfError := ⟨m, none⟩

/-- Modelled from the spec: `errors.Wrap(wrapper, err)` — keeps the
component-identifying message of `wrapper` and attaches the store-client
error as the underlying cause. -/
def wrap (w : MfError) (e : RedisErr) : MfError := ⟨w.msg, some e⟩

/-- Embeds `ErrRedisThingSave` from `things/redis/things.go`. -/
def errRedisThingSave : MfError := errNew "saving thing in redis cache error"

/-- Embeds `ErrRedisThingID` from `things/redis/things.go`. -/
def errRedisThingID : MfError := errNew "get thing id from redis cache error"

/-- Embeds `ErrRedisThingRemove` from `things/redis/things.go`. -/
def errRedisThingRemove : MfError := errNew "remove thing from redis cache error"

/-- The `keyPrefix` constant `"thing_key"` of `things/redis/things.go`. -/
def keyPfx : String := "thing_key"

/-- The `idPrefix` constant `"thing"` of `things/redis/things.go`. -/
def idPfx : String := "thing"

/-- Forward cache key: `fmt.Sprintf("%s:%s", keyPrefix, thingKey)`. -/
def tkeyOf (thingKey : String) : String := keyPfx ++ ":" ++ thingKey

/-- Reverse cache key: `fmt.Sprintf("%s:%s", idPrefix, thingID)`. -/
def tidOf (thingID : String) : String := idPfx ++ ":" ++ thingID

namespace ThingCache

/-- Embeds `thingCache.Save` from `things/redis/things.go`: set the forward entry
`thing_key:<thingKey> = thingID` (no expiry), then the reverse entry
`thing:<thingID> = thingKey` (no expiry); each failure is wrapped with
`ErrRedisThingSave` and returned. -/
def Save (c : Client) (thingKey thingID : String) : Client × Option MfError :=
  let tkey := tkeyOf thingKey
  match c.set tkey thingID 0 with
  | (c1, some e) => (c1, some (wrap errRedisThingSave e))
  | (c1, none) =>
    let tid := tidOf thingID
    match c1.set tid thingKey 0 with
    | (c2, some e) => (c2, some (wrap errRedisThingSave e))
    | (c2, none) => (c2, none)

/-- Embeds `thingCache.ID` from `things/redis/things.go`: read the forward entry
`thing_key:<thingKey>`; any failure (miss included) is wrapped with
`ErrRedisThingID`. -/
def ID (c : Client) (thingKey : String) : Client × Except MfError String :=
  match c.get (tkeyOf thingKey) with
  | (c1, Except.error e) => (c1, Except.error (wrap errRedisThingID e))
  | (c1, Except.ok thingID) => (c1, Except.ok thingID)

/-- Embeds `thingCache.Remove` from `things/redis/things.go`: resolve the stored
thing key from the reverse entry `thing:<thingID>`, then delete the forward
entry `thing_key:<key>` and the reverse entry in one multi-key `DEL`; each
failure is wrapped with `ErrRedisThingRemove`. -/
def Remove (c : Client) (thingID : String) : Client × Option MfError :=
  let tid := tidOf thingID
  match c.get tid with
  | (c1, Except.error e) => (c1, some (wrap errRedisThingRemove e))
  | (c1, Except.ok key) =>
    match c1.del [tkeyOf key, tid] with
    | (c2, some e) => (c2, some (wrap errRedisThingRemove e))
    | (c2, none) => (c2, none)

end ThingCache

/-- Severity of a log call issued by `cmd/lora/main.go`. -/
inductive LogLevel where
  | info : LogLevel
  | warn : LogLevel
  | err : LogLevel
deriving DecidableEq, Repr

/-- Observable effect of a startup helper of `cmd/lora/main.go`: the log
lines it emits and whether it terminates the process (`os.Exit(1)`). -/
structure ProcState where
  logs : List (LogLevel × String)
  exited : Bool
deriving DecidableEq, Repr

/-- Embeds `subscribeToThingsES` from `cmd/lora/main.go`, as a function of the
result of `eventStore.Subscribe("mainflux.things")` (`none` = no error,
`some e` = error message `e`): it logs the Info line, and on a subscribe
error logs a Warn line and returns — the process keeps running. -/
def subscribeToThingsES (subResult : Option String) : ProcState :=
  let logs0 := [(LogLevel.info, "Subscribed to Redis Event Store")]
  match subResult with
  | some e =>
    { logs := logs0 ++
        [(LogLevel.warn,
          "Lora-adapter service failed to subscribe to Redis event source: " ++ e)],
      exited := false }
  | none => { logs := logs0, exited := false }

/-- Embeds `subscribeToLoRaBroker` from `cmd/lora/main.go`, as a function of the
result of `mqtt.Subscribe(loraServerTopic)`: on a subscribe error it logs an
Error line and calls `os.Exit(1)`. -/
def subscribeToLoRaBroker (subResult : Option String) : ProcState :=
  let logs0 := [(LogLevel.info, "Subscribed to Lora MQTT broker")]
  match subResult with
  | some e =>
    { logs := logs0 ++
        [(LogLevel.err, "Failed to subscribe to Lora MQTT broker: " ++ e)],
      exited := true }
  | none => { logs := logs0, exited := false }

/-! ### Store lemmas -/

theorem Store.entry_delKey_of_ne (s : Store) {k q : String} (h : k ≠ q) :
    (s.delKey k).entry q = s.entry q := by
  induction s with
  | nil => rfl
  | cons p rest ih =>
    by_cases hp : p.1 = k
    · rw [Store.delKey]
      simp only [hp, if_true, ih, Store.entry]
      rw [if_neg h]
    · rw [Store.delKey]
      simp only [hp, if_false, Store.entry, ih]

theorem Store.entry_set_self (s : Store) (k v : String) (t : Nat) :
    (s.set k v t).entry k = some (v, t) := by
  simp [Store.set, Store.entry]

theorem Store.entry_set_of_ne (s : Store) {k q : String} (v : String) (t : Nat)
    (h : k ≠ q) : (s.set k v t).entry q = s.entry q := by
  rw [Store.set, Store.entry]
  simp only [h, if_false]
  exact Store.entry_delKey_of_ne s h

theorem Store.get_set_self (s : Store) (k v : String) (t : Nat) :
    (s.set k v t).get k = some v := by
  rw [Store.get, Store.entry_set_self]; rfl

theorem Store.get_set_of_ne (s : Store) {k q : String} (v : String) (t : Nat)
    (h : k ≠ q) : (s.set k v t).get q = s.get q := by
  rw [Store.get, Store.entry_set_of_ne s v t h]; rfl

theorem Store.entry_del_of_mem (s : Store) {ks : List String} {q : String}
    (h : q ∈ ks) : (s.del ks).entry q = none := by
  induction s with
  | nil => rfl
  | cons p rest ih =>
    rw [Store.del]
    by_cases hp : p.1 ∈ ks
    · simp only [hp, if_true, ih]
    · simp only [hp, if_false, Store.entry, ih]
      rw [if_neg]
      intro hq
      exact hp (hq ▸ h)

theorem Store.entry_del_of_not_mem (s : Store) {ks : List String} {q : String}
    (h : q ∉ ks) : (s.del ks).entry q = s.entry q := by
  induction s with
  | nil => rfl
  | cons p rest ih =>
    rw [Store.del]
    by_cases hp : p.1 ∈ ks
    · simp only [hp, if_true, ih, Store.entry]
      rw [if_neg]
      intro hq
      exact h (hq ▸ hp)
    · simp only [hp, if_false, Store.entry, ih]

theorem Store.get_del_of_mem (s : Store) {ks : List String} {q : String}
    (h : q ∈ ks) : (s.del ks).get q = none := by
  rw [Store.get, Store.entry_del_of_mem s h]; rfl

theorem Store.get_del_of_not_mem (s : Store) {ks : List String} {q : String}
    (h : q ∉ ks) : (s.del ks).get q = s.get q := by
  rw [Store.get, Store.entry_del_of_not_mem s h]; rfl

/-! ### Key-namespace lemmas: a forward key never equals a reverse key -/

theorem tkey_ne_tid (a b : String) : tkeyOf a ≠ tidOf b := by
  intro h
  have h5 : (tkeyOf a).data.get? 5 = (tidOf b).data.get? 5 := by rw [h]
  have hl : (tkeyOf a).data.get? 5 = some '_' := rfl
  have hr : (tidOf b).data.get? 5 = some ':' := rfl
  rw [hl, hr] at h5
  exact absurd h5 (by decide)

theorem tid_inj {a b : String} (h : tidOf a = tidOf b) : a = b := by
  have h2 : (tidOf a).data = (tidOf b).data := by rw [h]
  have ha : (tidOf a).data = "thing:".data ++ a.data := rfl
  have hb : (tidOf b).data = "thing:".data ++ b.data := rfl
  rw [ha, hb] at h2
  have h3 : a.data = b.data := List.append_cancel_left h2
  cases a; cases b
  simp only at h3
  rw [h3]

/-! ### Computation lemmas for a reachable store (empty transport schedule) -/

theorem Client.get_healthy (s : Store) (t : List Cmd) (k : String) :
    Client.get ⟨s, [], t⟩ k =
      (⟨s, [], t ++ [Cmd.getC k]⟩,
        match s.get k with
        | none => Except.error RedisErr.nil
        | some v => Except.ok v) := by
  simp only [Client.get, Client.logCmd, Client.next]
  cases s.get k <;> rfl

theorem Client.set_healthy (s : Store) (t : List Cmd) (k v : String) (ttl : Nat) :
    Client.set ⟨s, [], t⟩ k v ttl =
      (⟨s.set k v ttl, [], t ++ [Cmd.setC k v ttl]⟩, none) := rfl

theorem Client.del_healthy (s : Store) (t : List Cmd) (ks : List String) :
    Client.del ⟨s, [], t⟩ ks =
      (⟨s.del ks, [], t ++ [Cmd.delC ks]⟩, none) := rfl

theorem save_healthy (s : Store) (t : List Cmd) (A B : String) :
    ThingCache.Save ⟨s, [], t⟩ A B =
      (⟨(s.set (tkeyOf A) B 0).set (tidOf B) A 0, [],
        (t ++ [Cmd.setC (tkeyOf A) B 0]) ++ [Cmd.setC (tidOf B) A 0]⟩, none) := rfl

theorem id_healthy (s : Store) (t : List Cmd) (A : String) :
    ThingCache.ID ⟨s, [], t⟩ A =
      (⟨s, [], t ++ [Cmd.getC (tkeyOf A)]⟩,
        match s.get (tkeyOf A) with
        | none => Except.error (wrap errRedisThingID RedisErr.nil)
        | some v => Except.ok v) := by
  rw [ThingCache.ID, Client.get_healthy]
  cases s.get (tkeyOf A) <;> rfl

theorem remove_healthy (s : Store) (t : List Cmd) {i key : String}
    (h : s.get (tidOf i) = some key) :
    ThingCache.Remove ⟨s, [], t⟩ i =
      (⟨s.del [tkeyOf key, tidOf i], [],
        (t ++ [Cmd.getC (tidOf i)]) ++ [Cmd.delC [tkeyOf key, tidOf i]]⟩, none) := by
  rw [ThingCache.Remove, Client.get_healthy, h]
  rfl

/-! ### Claim theorems -/

/-- C1: for every thing key `A` and thing ID `B`, after a successful
`Save(A, B)` on a reachable store, `ID(A)` returns `B` and the reverse entry
keyed by `B` (`thing:B`) holds `A`. -/
theorem c1_save_then_bidirectional_lookup (s : Store) (t : List Cmd) (A B : String) :
    (ThingCache.Save ⟨s, [], t⟩ A B).2 = none ∧
    (ThingCache.ID (ThingCache.Save ⟨s, [], t⟩ A B).1 A).2 = Except.ok B ∧
    ((ThingCache.Save ⟨s, [], t⟩ A B).1).store.get (tidOf B) = some A := by
  rw [save_healthy]
  refine ⟨rfl, ?_, ?_⟩
  · have hget : ((s.set (tkeyOf A) B 0).set (tidOf B) A 0).get (tkeyOf A) = some B := by
      rw [Store.get_set_of_ne _ _ _ (fun h => tkey_ne_tid A B h.symm),
        Store.get_set_self]
    rw [id_healthy, hget]
  · exact Store.get_set_self _ _ _ _

/-- C2: after `Save(A, B)` followed by `Remove(B)` on a reachable store, the
`Remove` succeeds, both the forward entry `thing_key:A` and the reverse entry
`thing:B` are absent, and a subsequent `ID(A)` reports the wrapped not-found
error. -/
theorem c2_save_remove_absent (s : Store) (t : List Cmd) (A B : String) :
    (ThingCache.Remove (ThingCache.Save ⟨s, [], t⟩ A B).1 B).2 = none ∧
    ((ThingCache.Remove (ThingCache.Save ⟨s, [], t⟩ A B).1 B).1).store.get (tkeyOf A) = none ∧
    ((ThingCache.Remove (ThingCache.Save ⟨s, [], t⟩ A B).1 B).1).store.get (tidOf B) = none ∧
    (ThingCache.ID ((ThingCache.Remove (ThingCache.Save ⟨s, [], t⟩ A B).1 B).1) A).2 =
      Except.error (wrap errRedisThingID RedisErr.nil) := by
  rw [save_healthy]
  have hrev : ((s.set (tkeyOf A) B 0).set (tidOf B) A 0).get (tidOf B) = some A :=
    Store.get_set_self _ _ _ _
  rw [remove_healthy _ _ hrev]
  have hfwd : (((s.set (tkeyOf A) B 0).set (tidOf B) A 0).del
      [tkeyOf A, tidOf B]).get (tkeyOf A) = none :=
    Store.get_del_of_mem _ (by simp)
  refine ⟨rfl, hfwd, Store.get_del_of_mem _ (by simp), ?_⟩
  rw [id_healthy, hfwd]

/-- C3: when the reverse entry `thing:i` holds `key`, `Remove(i)` first reads
that reverse entry and then issues one single multi-key `DEL` of the forward
entry `thing_key:key` together with the reverse entry — exactly two store
commands, the deletion being one request — and afterwards neither entry
survives. -/
theorem c3_remove_single_multikey_delete (s : Store) (t : List Cmd) (i key : String)
    (h : s.get (tidOf i) = some key) :
    (ThingCache.Remove ⟨s, [], t⟩ i).2 = none ∧
    ((ThingCache.Remove ⟨s, [], t⟩ i).1).trace =
      t ++ [Cmd.getC (tidOf i), Cmd.delC [tkeyOf key, tidOf i]] ∧
    ((ThingCache.Remove ⟨s, [], t⟩ i).1).store.get (tkeyOf key) = none ∧
    ((ThingCache.Remove ⟨s, [], t⟩ i).1).store.get (tidOf i) = none := by
  rw [remove_healthy _ _ h]
  exact ⟨rfl, by simp, Store.get_del_of_mem _ (by simp), Store.get_del_of_mem _ (by simp)⟩

/-- Witness for C3 at a concrete store holding the pair
`("key-123", "thing-abc")`. -/
theorem c3_remove_single_multikey_delete_witness :
    Store.get [(tidOf "thing-abc", "key-123", 0), (tkeyOf "key-123", "thing-abc", 0)]
      (tidOf "thing-abc") = some "key-123" ∧
    (ThingCache.Remove
      ⟨[(tidOf "thing-abc", "key-123", 0), (tkeyOf "key-123", "thing-abc", 0)], [], []⟩
      "thing-abc").2 = none ∧
    ((ThingCache.Remove
      ⟨[(tidOf "thing-abc", "key-123", 0), (tkeyOf "key-123", "thing-abc", 0)], [], []⟩
      "thing-abc").1).trace =
      [] ++ [Cmd.getC (tidOf "thing-abc"), Cmd.delC [tkeyOf "key-123", tidOf "thing-abc"]] := by
  have h := c3_remove_single_multikey_delete
    [(tidOf "thing-abc", "key-123", 0), (tkeyOf "key-123", "thing-abc", 0)] []
    "thing-abc" "key-123" (by decide)
  exact ⟨by decide, h.1, h.2.1⟩

/-- C5: when the reverse entry `thing:i` is absent, `Remove(i)` on a
reachable store fails with the wrapped `redis.Nil` error instead of
succeeding idempotently, and the store state is unchanged. -/
theorem c5_remove_absent_fails_store_unchanged (s : Store) (t : List Cmd) (i : String)
    (h : s.get (tidOf i) = none) :
    (ThingCache.Remove ⟨s, [], t⟩ i).2 =
      some (wrap errRedisThingRemove RedisErr.nil) ∧
    ((ThingCache.Remove ⟨s, [], t⟩ i).1).store = s := by
  rw [ThingCache.Remove, Client.get_healthy, h]
  exact ⟨rfl, rfl⟩

/-- Witness for C5 at the empty store (double-delete scenario). -/
theorem c5_remove_absent_fails_store_unchanged_witness :
    Store.get [] (tidOf "thing-abc") = none ∧
    (ThingCache.Remove ⟨[], [], []⟩ "thing-abc").2 =
      some (wrap errRedisThingRemove RedisErr.nil) ∧
    ((ThingCache.Remove ⟨[], [], []⟩ "thing-abc").1).store = [] := by
  have h := c5_remove_absent_fails_store_unchanged [] [] "thing-abc" rfl
  exact ⟨rfl, h.1, h.2⟩

/-- C7: the two entries installed by `Save` are both written with expiry 0
(no TTL) : they persist until an explicit removal. -/
theorem c7_save_entries_have_no_expiry (s : Store) (t : List Cmd) (A B : String) :
    ((ThingCache.Save ⟨s, [], t⟩ A B).1).store.entry (tkeyOf A) = some (B, 0) ∧
    ((ThingCache.Save ⟨s, [], t⟩ A B).1).store.entry (tidOf B) = some (A, 0) := by
  rw [save_healthy]
  constructor
  · rw [Store.entry_set_of_ne _ _ _ (fun h => tkey_ne_tid A B h.symm),
      Store.entry_set_self]
  · exact Store.entry_set_self _ _ _ _

/-- C9: after `Save(K, id1)` then `Save(K, id2)` with `id1 ≠ id2`, the
forward entry maps `K` to `id2` while the stale reverse entry `thing:id1`
still holds `K`; a later `Remove(id1)` therefore succeeds and deletes the
live forward entry `thing_key:K` of the pair `(K, id2)`. -/
theorem c9_stale_reverse_remove_kills_live_forward (s : Store) (t : List Cmd)
    (K id1 id2 : String) (h : id1 ≠ id2) :
    ((ThingCache.Save (ThingCache.Save ⟨s, [], t⟩ K id1).1 K id2).1).store.get
      (tkeyOf K) = some id2 ∧
    ((ThingCache.Save (ThingCache.Save ⟨s, [], t⟩ K id1).1 K id2).1).store.get
      (tidOf id1) = some K ∧
    (ThingCache.Remove ((ThingCache.Save (ThingCache.Save ⟨s, [], t⟩ K id1).1 K id2).1)
      id1).2 = none ∧
    ((ThingCache.Remove ((ThingCache.Save (ThingCache.Save ⟨s, [], t⟩ K id1).1 K id2).1)
      id1).1).store.get (tkeyOf K) = none := by
  rw [save_healthy, save_healthy]
  have hfwd : ((((s.set (tkeyOf K) id1 0).set (tidOf id1) K 0).set (tkeyOf K) id2 0).set
      (tidOf id2) K 0).get (tkeyOf K) = some id2 := by
    rw [Store.get_set_of_ne _ _ _ (fun hx => tkey_ne_tid K id2 hx.symm),
      Store.get_set_self]
  have hrev : ((((s.set (tkeyOf K) id1 0).set (tidOf id1) K 0).set (tkeyOf K) id2 0).set
      (tidOf id2) K 0).get (tidOf id1) = some K := by
    rw [Store.get_set_of_ne _ _ _ (fun hx => h.symm (tid_inj hx)),
      Store.get_set_of_ne _ _ _ (tkey_ne_tid K id1),
      Store.get_set_self]
  rw [remove_healthy _ _ hrev]
  exact ⟨hfwd, hrev, rfl, Store.get_del_of_mem _ (by simp)⟩

/-- Witness for C9 at `K = "key-123"`, `id1 = "thing-abc"`,
`id2 = "thing-def"` on the empty store. -/
theorem c9_stale_reverse_remove_kills_live_forward_witness :
    ("thing-abc" : String) ≠ "thing-def" ∧
    ((ThingCache.Save (ThingCache.Save ⟨[], [], []⟩ "key-123" "thing-abc").1
      "key-123" "thing-def").1).store.get (tkeyOf "key-123") = some "thing-def" ∧
    (ThingCache.Remove ((ThingCache.Save (ThingCache.Save ⟨[], [], []⟩ "key-123"
      "thing-abc").1 "key-123" "thing-def").1) "thing-abc").2 = none ∧
    ((ThingCache.Remove ((ThingCache.Save (ThingCache.Save ⟨[], [], []⟩ "key-123"
      "thing-abc").1 "key-123" "thing-def").1) "thing-abc").1).store.get
      (tkeyOf "key-123") = none := by
  have h := c9_stale_reverse_remove_kills_live_forward [] [] "key-123" "thing-abc"
    "thing-def" (by decide)
  exact ⟨by decide, h.1, h.2.2.1, h.2.2.2⟩

/-- Store-framing of `Client.get`: a `GET` command never changes the store,
whatever the transport schedule holds. -/
theorem Client.get_store (c : Client) (k : String) : ((c.get k).1).store = c.store := by
  rcases c with ⟨s, sched, t⟩
  cases sched with
  | nil =>
    simp only [Client.get, Client.logCmd, Client.next]
    cases s.get k <;> rfl
  | cons o rest =>
    cases o with
    | ok =>
      simp only [Client.get, Client.logCmd, Client.next]
      cases s.get k <;> rfl
    | fail m => rfl

/-- C10: `ID` never modifies the store — hit, miss or transport failure, the
store state after `ID(thingKey)` equals the store state before the call. -/
theorem c10_id_never_modifies_store (c : Client) (k : String) :
    ((ThingCache.ID c k).1).store = c.store := by
  rcases hg : c.get (tkeyOf k) with ⟨c1, r⟩
  have h1 : c1.store = c.store := by
    rw [← Client.get_store c (tkeyOf k), hg]
  cases r with
  | error e =>
    simp only [ThingCache.ID, hg]
    exact h1
  | ok v =>
    simp only [ThingCache.ID, hg]
    exact h1

/-- C4: `Save` issues the forward write first and the reverse write second
(the reverse write is attempted exactly when the forward write succeeded);
it returns an error iff at least one of the two writes fails; and when the
second write fails after the first succeeded, the forward entry is left in
place (no rollback) while the failure is reported wrapped to the caller. -/
theorem c4_save_write_order_and_error_reporting (s : Store) (t : List Cmd)
    (A B : String) (o1 o2 : NetOutcome) :
    (((ThingCache.Save ⟨s, [o1, o2], t⟩ A B).1).trace =
      t ++ Cmd.setC (tkeyOf A) B 0 ::
        (if o1 = NetOutcome.ok then [Cmd.setC (tidOf B) A 0] else [])) ∧
    ((ThingCache.Save ⟨s, [o1, o2], t⟩ A B).2 ≠ none ↔
      (o1 ≠ NetOutcome.ok ∨ o2 ≠ NetOutcome.ok)) ∧
    (∀ m : String, o1 = NetOutcome.ok → o2 = NetOutcome.fail m →
      ((ThingCache.Save ⟨s, [o1, o2], t⟩ A B).1).store.get (tkeyOf A) = some B ∧
      (ThingCache.Save ⟨s, [o1, o2], t⟩ A B).2 =
        some (wrap errRedisThingSave (RedisErr.network m))) := by
  cases o1 with
  | ok =>
    cases o2 with
    | ok =>
      refine ⟨by simp [ThingCache.Save, Client.set, Client.logCmd, Client.next],
        by simp [ThingCache.Save, Client.set, Client.logCmd, Client.next], ?_⟩
      intro m _ h2
      exact absurd h2 (by simp)
    | fail m2 =>
      refine ⟨by simp [ThingCache.Save, Client.set, Client.logCmd, Client.next],
        by simp [ThingCache.Save, Client.set, Client.logCmd, Client.next], ?_⟩
      intro m _ h2
      have hm : m2 = m := by
        injection h2
      subst hm
      exact ⟨Store.get_set_self _ _ _ _, rfl⟩
  | fail m1 =>
    refine ⟨by simp [ThingCache.Save, Client.set, Client.logCmd, Client.next],
      by simp [ThingCache.Save, Client.set, Client.logCmd, Client.next], ?_⟩
    intro m h1 _
    exact absurd h1 (by simp)

/-- Witness for C4: forward write succeeds, reverse write fails — the error
is reported and the forward entry is not rolled back. -/
theorem c4_save_write_order_and_error_reporting_witness :
    ((ThingCache.Save ⟨[], [NetOutcome.ok, NetOutcome.fail "boom"], []⟩
        "key-123" "thing-abc").1).store.get (tkeyOf "key-123") = some "thing-abc" ∧
    (ThingCache.Save ⟨[], [NetOutcome.ok, NetOutcome.fail "boom"], []⟩
        "key-123" "thing-abc").2 =
      some (wrap errRedisThingSave (RedisErr.network "boom")) := by
  exact (c4_save_write_order_and_error_reporting [] [] "key-123" "thing-abc"
    NetOutcome.ok (NetOutcome.fail "boom")).2.2 "boom" rfl rfl

/-- C8 counterexample: when the initial `eventStore.Subscribe` call fails at
startup, the lora-adapter does not exit — it logs a warning and the process
continues, contradicting the claim that the failure is fatal. -/
theorem c8_counterexample_subscribe_failure_not_fatal :
    (subscribeToThingsES (some "connection refused")).exited = false ∧
    (LogLevel.warn,
      "Lora-adapter service failed to subscribe to Redis event source: connection refused")
      ∈ (subscribeToThingsES (some "connection refused")).logs := by
  exact ⟨rfl, by decide⟩

/-- C8 amended: if the initial lifecycle-event subscription fails at startup,
`subscribeToThingsES` logs a warning and returns with the process still
running — the failure is not fatal. -/
theorem c8_amended_subscribe_failure_warns_and_continues (e : String) :
    (subscribeToThingsES (some e)).exited = false ∧
    (subscribeToThingsES (some e)).logs =
      [(LogLevel.info, "Subscribed to Redis Event Store"),
       (LogLevel.warn,
        "Lora-adapter service failed to subscribe to Redis event source: " ++ e)] := by
  exact ⟨rfl, rfl⟩

/-! ### Error-wrapping lemmas, over an arbitrary transport schedule -/

theorem save_error_wrapped (s : Store) (l : List NetOutcome) (t : List Cmd)
    (A B : String) (e : MfError) (h : (ThingCache.Save ⟨s, l, t⟩ A B).2 = some e) :
    e.msg = errRedisThingSave.msg ∧ e.cause.isSome = true := by
  rcases l with _ | ⟨o1, rest⟩
  · rw [save_healthy] at h
    cases h
  · cases o1 with
    | fail m =>
      simp only [ThingCache.Save, Client.set, Client.logCmd, Client.next,
        Option.some.injEq] at h
      subst h
      exact ⟨rfl, rfl⟩
    | ok =>
      rcases rest with _ | ⟨o2, rest2⟩
      · simp only [ThingCache.Save, Client.set, Client.logCmd, Client.next] at h
        exact Option.noConfusion h
      · cases o2 with
        | ok =>
          simp only [ThingCache.Save, Client.set, Client.logCmd, Client.next] at h
          exact Option.noConfusion h
        | fail m =>
          simp only [ThingCache.Save, Client.set, Client.logCmd, Client.next,
            Option.some.injEq] at h
          subst h
          exact ⟨rfl, rfl⟩

theorem id_error_wrapped (s : Store) (l : List NetOutcome) (t : List Cmd)
    (k : String) (e : MfError) (h : (ThingCache.ID ⟨s, l, t⟩ k).2 = Except.error e) :
    e.msg = errRedisThingID.msg ∧ e.cause.isSome = true := by
  rcases l with _ | ⟨o1, rest⟩
  · rw [id_healthy] at h
    rcases hs : s.get (tkeyOf k) with _ | v <;> rw [hs] at h
    · simp only [Except.error.injEq] at h
      subst h
      exact ⟨rfl, rfl⟩
    · exact Except.noConfusion h
  · cases o1 with
    | fail m =>
      simp only [ThingCache.ID, Client.get, Client.logCmd, Client.next,
        Except.error.injEq] at h
      subst h
      exact ⟨rfl, rfl⟩
    | ok =>
      simp only [ThingCache.ID, Client.get, Client.logCmd, Client.next] at h
      rcases hs : s.get (tkeyOf k) with _ | v <;> rw [hs] at h
      · simp only [Except.error.injEq] at h
        subst h
        exact ⟨rfl, rfl⟩
      · exact Except.noConfusion h

theorem remove_error_wrapped (s : Store) (l : List NetOutcome) (t : List Cmd)
    (i : String) (e : MfError) (h : (ThingCache.Remove ⟨s, l, t⟩ i).2 = some e) :
    e.msg = errRedisThingRemove.msg ∧ e.cause.isSome = true := by
  rcases l with _ | ⟨o1, rest⟩
  · rw [ThingCache.Remove, Client.get_healthy] at h
    rcases hs : s.get (tidOf i) with _ | key <;> rw [hs] at h
    · simp only [Option.some.injEq] at h
      subst h
      exact ⟨rfl, rfl⟩
    · simp only [Client.del, Client.logCmd, Client.next] at h
      exact Option.noConfusion h
  · cases o1 with
    | fail m =>
      simp only [ThingCache.Remove, Client.get, Client.logCmd, Client.next,
        Option.some.injEq] at h
      subst h
      exact ⟨rfl, rfl⟩
    | ok =>
      simp only [ThingCache.Remove, Client.get, Client.logCmd, Client.next] at h
      rcases hs : s.get (tidOf i) with _ | key <;> rw [hs] at h
      · simp only [Option.some.injEq] at h
        subst h
        exact ⟨rfl, rfl⟩
      · rcases rest with _ | ⟨o2, rest2⟩
        · simp only [Client.del, Client.logCmd, Client.next] at h
          exact Option.noConfusion h
        · cases o2 with
          | ok =>
            simp only [Client.del, Client.logCmd, Client.next] at h
            exact Option.noConfusion h
          | fail m2 =>
            simp only [Client.del, Client.logCmd, Client.next,
              Option.some.injEq] at h
            subst h
            exact ⟨rfl, rfl⟩

/-- C6 counterexample: `ID` wraps the "entry not found" outcome (store miss)
and a "store unreachable" transport failure with the same
component-identifying cause (`ErrRedisThingID`'s message), so the two are
not distinguishable without inspecting the underlying store-client error. -/
theorem c6_counterexample_miss_vs_unreachable_same_cause :
    (ThingCache.ID ⟨[], [], []⟩ "key-123").2 =
      Except.error (wrap errRedisThingID RedisErr.nil) ∧
    (ThingCache.ID ⟨[], [NetOutcome.fail "store unreachable"], []⟩ "key-123").2 =
      Except.error (wrap errRedisThingID (RedisErr.network "store unreachable")) ∧
    (wrap errRedisThingID RedisErr.nil).msg =
      (wrap errRedisThingID (RedisErr.network "store unreachable")).msg := by
  exact ⟨rfl, rfl, rfl⟩

/-- C6 amended: every error returned by `Save`, `ID` and `Remove` carries the
component-identifying cause of its operation with the underlying store error
attached, but `ID` wraps a miss and a store failure with the same component
cause, so they are told apart only by the attached underlying error —
`redis.Nil` for not-found versus the transport error for unreachable. -/
theorem c6_amended_wrapped_same_cause_distinct_underlying
    (s : Store) (l : List NetOutcome) (t : List Cmd) (A B i k m : String) :
    (∀ e, (ThingCache.Save ⟨s, l, t⟩ A B).2 = some e →
      e.msg = errRedisThingSave.msg ∧ e.cause.isSome = true) ∧
    (∀ e, (ThingCache.ID ⟨s, l, t⟩ k).2 = Except.error e →
      e.msg = errRedisThingID.msg ∧ e.cause.isSome = true) ∧
    (∀ e, (ThingCache.Remove ⟨s, l, t⟩ i).2 = some e →
      e.msg = errRedisThingRemove.msg ∧ e.cause.isSome = true) ∧
    (s.get (tkeyOf k) = none →
      (ThingCache.ID ⟨s, [], t⟩ k).2 =
        Except.error ⟨errRedisThingID.msg, some RedisErr.nil⟩) ∧
    ((ThingCache.ID ⟨s, NetOutcome.fail m :: l, t⟩ k).2 =
      Except.error ⟨errRedisThingID.msg, some (RedisErr.network m)⟩) ∧
    some RedisErr.nil ≠ some (RedisErr.network m) := by
  refine ⟨fun e h => save_error_wrapped s l t A B e h,
    fun e h => id_error_wrapped s l t k e h,
    fun e h => remove_error_wrapped s l t i e h, ?_, rfl, by simp⟩
  intro hmiss
  rw [id_healthy, hmiss]
  rfl

/-- Witness for C6 amended at the empty store: the miss error of `ID` and
the transport-failure error of `ID`, with their distinct underlying causes. -/
theorem c6_amended_wrapped_same_cause_distinct_underlying_witness :
    (ThingCache.ID ⟨[], [], []⟩ "key-123").2 =
      Except.error ⟨errRedisThingID.msg, some RedisErr.nil⟩ ∧
    (ThingCache.ID ⟨[], [NetOutcome.fail "boom"], []⟩ "key-123").2 =
      Except.error ⟨errRedisThingID.msg, some (RedisErr.network "boom")⟩ := by
  have h := c6_amended_wrapped_same_cause_distinct_underlying [] [] [] "a" "b" "c"
    "key-123" "boom"
  exact ⟨h.2.2.2.1 rfl, h.2.2.2.2.1⟩

end Mainflux
